import Mathlib

/-!
Verification of the defishard-contract repository against its specification.

Shallow embedding of the two core on-ledger programs:
* the escrow vault (src/vault-contract/src/lib.rs): construction, NEAR deposit,
  fungible-token deposit notification, and release/settlement;
* the gated NFT sale (src/tenk-nft-contract/contracts/tenk/src/lib.rs):
  sale status, allowance gating, mint orchestration and burn authorization.

Machine integers (u128 balances) are modelled as Nat; the places where the Rust
code uses checked arithmetic that panics on overflow are modelled as explicit
error branches guarded by the u128 bound.  Calls that can panic are modelled
with Except String; dispatched Promises (transfers) are returned as explicit
effect data.
-/

deriving instance DecidableEq for Except

/-- Upper bound of the u128 domain: checked u128 arithmetic panics at this bound. -/
def u128Bound : Nat := 2 ^ 128

/-- Character allowed in a NEAR account id besides separators: lowercase ascii letter or digit. -/
def validAccountChar (c : Char) : Bool :=
  (Nat.ble 97 c.toNat && Nat.ble c.toNat 122) || (Nat.ble 48 c.toNat && Nat.ble c.toNat 57)

/-- Separator characters of NEAR account ids. -/
def isSepChar (c : Char) : Bool :=
  c == '.' || c == '_' || c == '-'

/-- Every character is a valid account character or a separator. -/
def accountCharsOk : List Char → Bool
  | [] => true
  | c :: rest => (validAccountChar c || isSepChar c) && accountCharsOk rest

/-- No two adjacent separator characters. -/
def noAdjacentSeps : List Char → Bool
  | [] => true
  | [_] => true
  | c :: d :: rest => !(isSepChar c && isSepChar d) && noAdjacentSeps (d :: rest)

/-- Model of the host function env::is_valid_account_id (NEAR account id rules:
length 2..64, lowercase alphanumerics and the separators . _ -, separators
neither leading, trailing nor adjacent). -/
def isValidAccountId (s : String) : Bool :=
  let cs := s.toList
  Nat.ble 2 cs.length && Nat.ble cs.length 64 &&
  accountCharsOk cs && noAdjacentSeps cs &&
  (match cs with
   | [] => false
   | c :: _ => !isSepChar c) &&
  (match cs.getLast? with
   | none => false
   | some c => !isSepChar c)

/-- A declared token deposit of the vault (struct TokenDeposit in
src/vault-contract/src/lib.rs): expected token contract, expected amount,
and the confirmed flag is_deposited. -/
structure TokenDeposit where
  token_contract_id : String
  token_amount : Nat
  is_deposited : Bool
deriving DecidableEq, Repr

/-- The escrow vault state (struct Contract in src/vault-contract/src/lib.rs). -/
structure Vault where
  owner_id : String
  token_id : String
  near_amount : Nat
  near_deposited : Bool
  token_deposit : List TokenDeposit
deriving DecidableEq, Repr

/-- The per-declaration validation loop of the vault constructor
(src/vault-contract/src/lib.rs, new, lines 48-55), with the checks in source
order: account id validity, nonzero amount, and the is_deposited flag check
written in the source as require!(token.is_deposited == true). -/
def checkTokenDeposits : List TokenDeposit → Except String Unit
  | [] => Except.ok ()
  | t :: ts =>
    if isValidAccountId t.token_contract_id then
      if 0 < t.token_amount then
        if t.is_deposited then checkTokenDeposits ts
        else Except.error "is_deposit must be true"
      else Except.error "Cannot wrap 0 token"
    else Except.error "Not valid token contract id"

/-- The vault constructor (src/vault-contract/src/lib.rs, new, lines 40-64):
validates the declared token deposits and stores them unchanged, with the base
flag near_deposited set to false. -/
def Vault.new (owner_id token_id : String) (near_amount : Nat)
    (token_deposit : List TokenDeposit) : Except String Vault :=
  match checkTokenDeposits token_deposit with
  | Except.error e => Except.error e
  | Except.ok _ =>
    Except.ok
      { owner_id := owner_id
        token_id := token_id
        near_amount := near_amount
        near_deposited := false
        token_deposit := token_deposit }

/-- The effects dispatched by Vault.release: an optional base-currency transfer
(receiver, amount), the list of token transfers (token contract, receiver,
amount), and the beneficiary of the account deletion refund. -/
structure ReleaseEffect where
  near_transfer : Option (String × Nat)
  token_transfers : List (String × String × Nat)
  deleted_beneficiary : String
deriving DecidableEq, Repr

/-- The release entry point (src/vault-contract/src/lib.rs, release, lines
75-99).  Only the recorded vault owner may call it.  The base amount is
transferred when its flag is set and the base flag is cleared; for every
declaration of the cloned token list whose flag is set an ft_transfer of the
full declared amount is dispatched, and the token flags are left untouched
(the loop runs over a clone).  Finally the account deletion is dispatched. -/
def Vault.release (v : Vault) (caller claimant : String) :
    Except String (Vault × ReleaseEffect) :=
  if caller = v.owner_id then
    Except.ok
      ({ v with near_deposited := false },
       { near_transfer :=
           if v.near_deposited then some (claimant, v.near_amount) else none
         token_transfers :=
           v.token_deposit.filterMap fun t =>
             if t.is_deposited then
               some (t.token_contract_id, claimant, t.token_amount)
             else none
         deleted_beneficiary := claimant })
  else Except.error "Unauthorized"

/-- The payable deposit_near entry point (src/vault-contract/src/lib.rs, lines
101-117).  The require! condition short-circuits: the checked fee addition is
evaluated only when the amount is nonzero and not yet deposited, and panics at
the u128 bound.  On success the 1 percent skim (integer division by 100) is
transferred to the vault owner and the base flag is set. -/
def Vault.deposit_near (v : Vault) (attached : Nat) :
    Except String (Vault × (String × Nat)) :=
  if v.near_amount = 0 then Except.error "Can not accept Near Deposit"
  else if v.near_deposited then Except.error "Can not accept Near Deposit"
  else if u128Bound ≤ v.near_amount / 100 + v.near_amount then
    Except.error "arithmetic overflow"
  else if v.near_amount / 100 + v.near_amount = attached then
    Except.ok ({ v with near_deposited := true }, (v.owner_id, v.near_amount / 100))
  else Except.error "Can not accept Near Deposit"

/-- The deposit-matching loop of ft_on_transfer (src/vault-contract/src/lib.rs,
lines 148-175), indexing over the declared token deposits.  A declaration whose
contract matches the predecessor either confirms on an exact fee-adjusted
amount match (dispatching the 1 percent forward to the vault owner and
continuing the loop) or returns the whole amount as unused; the fee overlay
for the expected amount is computed against the base near amount, and its
checked additions panic at the u128 bound.  Falling off the end of the list
returns 0 unused. -/
def ftLoop (near_amount : Nat) (vault_owner predecessor : String) (amount : Nat) :
    List TokenDeposit → Except String (List TokenDeposit × List (String × String × Nat) × Nat)
  | [] => Except.ok ([], [], 0)
  | t :: ts =>
    if t.token_contract_id = predecessor then
      if t.is_deposited then Except.ok (t :: ts, [], amount)
      else if u128Bound ≤ near_amount / 100 + near_amount then
        Except.error "arithmetic overflow"
      else if u128Bound ≤ t.token_amount / 100 + (near_amount / 100 + near_amount) then
        Except.error "arithmetic overflow"
      else if t.token_amount / 100 + (near_amount / 100 + near_amount) = amount then
        match ftLoop near_amount vault_owner predecessor amount ts with
        | Except.error e => Except.error e
        | Except.ok (ts2, fwds, unused) =>
          Except.ok ({ t with is_deposited := true } :: ts2,
            (t.token_contract_id, vault_owner, t.token_amount / 100) :: fwds, unused)
      else Except.ok (t :: ts, [], amount)
    else
      match ftLoop near_amount vault_owner predecessor amount ts with
      | Except.error e => Except.error e
      | Except.ok (ts2, fwds, unused) => Except.ok (t :: ts2, fwds, unused)

/-- The ft_on_transfer entry point (src/vault-contract/src/lib.rs, lines
140-178): runs the matching loop over the token deposits with the caller
(predecessor) as the candidate token contract, returning the updated vault,
the dispatched forwards and the unused amount. -/
def Vault.ft_on_transfer (v : Vault) (predecessor : String) (amount : Nat) :
    Except String (Vault × List (String × String × Nat) × Nat) :=
  match ftLoop v.near_amount v.owner_id predecessor amount v.token_deposit with
  | Except.error e => Except.error e
  | Except.ok (ts, fwds, unused) =>
    Except.ok ({ v with token_deposit := ts }, fwds, unused)


/-- The sale phase (enum Status of the tenk contract).  Modelled from the spec:
the types module declaring the enum is not under src/, but the four variants
and their use are fixed by get_status and assert_can_mint in
src/tenk-nft-contract/contracts/tenk/src/lib.rs. -/
inductive Status where
  | Closed
  | Presale
  | Open
  | SoldOut
deriving DecidableEq, Repr

/-- Modelled from the spec: the Allowance record of the missing types module,
one per account minting under a gated phase, holding the claimed and max
counters with claimed bounded by max and left defined as their gap. -/
structure Allowance where
  claimed : Nat
  max : Nat
deriving DecidableEq, Repr

/-- Modelled from the spec: Allowance constructor, claimed = 0 and the given max. -/
def Allowance.new (m : Nat) : Allowance := ⟨0, m⟩

/-- Modelled from the spec: left is the max minus claimed gap, clamped at zero
(Nat subtraction). -/
def Allowance.left (a : Allowance) : Nat := a.max - a.claimed

/-- Modelled from the spec: raise_max widens max monotonically to the maximum
of the current and the new value, leaving claimed unchanged. -/
def Allowance.raise_max (a : Allowance) (m : Nat) : Allowance :=
  ⟨a.claimed, Nat.max a.max m⟩

/-- Modelled from the spec: use_num requires num to be at most left and
increments claimed by num, failing otherwise. -/
def Allowance.use_num (a : Allowance) (n : Nat) : Except String Allowance :=
  if n ≤ a.left then Except.ok ⟨a.claimed + n, a.max⟩
  else Except.error "Allowance exceeded"

/-- The sale configuration (struct Sale of the missing types module) restricted
to the fields read by the embedded code of
src/tenk-nft-contract/contracts/tenk/src/lib.rs: phase boundaries, the public
per-account allowance cap, prices and the per-transaction mint rate limit. -/
structure Sale where
  presale_start : Option Nat
  public_sale_start : Option Nat
  allowance : Option Nat
  presale_price : Option Nat
  price : Nat
  mint_rate_limit : Option Nat
deriving DecidableEq, Repr

/-- The persistent state of the tenk contract (struct Contract in
src/tenk-nft-contract/contracts/tenk/src/lib.rs) restricted to the fields the
embedded entry points read: the collection owner, the whitelist LookupMap
(an association list), the sale configuration, the last minted id and the
token-owner LookupMap of the NFT standard. -/
structure TenkState where
  owner_id : String
  whitelist : List (String × Allowance)
  sale : Sale
  last_id : Nat
  owner_by_id : List (String × String)
deriving DecidableEq, Repr

/-- LookupMap read: first binding of the key in the association list. -/
def wlGet : List (String × Allowance) → String → Option Allowance
  | [], _ => none
  | (b, x) :: rest, a => if b = a then some x else wlGet rest a

/-- LookupMap write: replace the first binding of the key or append one. -/
def wlInsert : List (String × Allowance) → String → Allowance → List (String × Allowance)
  | [], a, al => [(a, al)]
  | (b, x) :: rest, a, al =>
    if b = a then (a, al) :: rest else (b, x) :: wlInsert rest a al

/-- LookupMap read for the token-owner table. -/
def lookupStr : List (String × String) → String → Option String
  | [], _ => none
  | (b, x) :: rest, a => if b = a then some x else lookupStr rest a

/-- The hardcoded technical backup owner of the tenk contract. -/
def TECH_BACKUP_OWNER : String := "willem.near"

/-- is_owner (src/tenk-nft-contract/contracts/tenk/src/lib.rs, lines 371-373):
the collection owner or the hardcoded backup owner. -/
def Tenk.is_owner (st : TenkState) (minter : String) : Bool :=
  minter == st.owner_id || minter == TECH_BACKUP_OWNER

/-- Guard of the two timestamp match arms of get_status: the optional bound is
set and strictly below the current time. -/
def optLt : Option Nat → Nat → Bool
  | some x, n => decide (x < n)
  | none, _ => false

/-- get_status (src/tenk-nft-contract/contracts/tenk/src/lib.rs, lines
489-496) as a pure function of the configured phase boundaries and the current
time, with the match arms in source order: public start set and passed gives
Open, else presale start set and passed gives Presale, else Closed. -/
def Tenk.get_status (pre pub : Option Nat) (now : Nat) : Status :=
  if optLt pub now then Status.Open
  else if optLt pre now then Status.Presale
  else Status.Closed

/-- The sale status of a contract state at the current time. -/
def Tenk.status (st : TenkState) (now : Nat) : Status :=
  Tenk.get_status st.sale.presale_start st.sale.public_sale_start now

/-- price (src/tenk-nft-contract/contracts/tenk/src/lib.rs, lines 498-504):
the discounted presale price when set during Presale and Closed, the base
price otherwise. -/
def Tenk.price (st : TenkState) (now : Nat) : Nat :=
  match Tenk.status st now with
  | Status.Presale | Status.Closed => st.sale.presale_price.getD st.sale.price
  | Status.Open | Status.SoldOut => st.sale.price

/-- cost_per_token (src/tenk-nft-contract/contracts/tenk/src/views.rs): zero
for the owner, the phase price otherwise. -/
def Tenk.cost_per_token (st : TenkState) (minter : String) (now : Nat) : Nat :=
  if Tenk.is_owner st minter then 0 else Tenk.price st now

/-- total_cost (src/tenk-nft-contract/contracts/tenk/src/views.rs): per-token
cost times the quantity. -/
def Tenk.total_cost (st : TenkState) (num : Nat) (minter : String) (now : Nat) : Nat :=
  num * Tenk.cost_per_token st minter now

/-- get_or_add_whitelist_allowance (src/tenk-nft-contract/contracts/tenk/src/lib.rs,
lines 468-480): with no configured public cap the requested quantity is
returned and the whitelist untouched; with a cap the account's record (or a
fresh one) is raised to the cap, stored, and its left returned. -/
def Tenk.get_or_add_whitelist_allowance (st : TenkState) (account : String)
    (num : Nat) : Nat × TenkState :=
  match st.sale.allowance with
  | none => (num, st)
  | some cap =>
    let al := ((wlGet st.whitelist account).getD (Allowance.new cap)).raise_max cap
    (al.left, { st with whitelist := wlInsert st.whitelist account al })

/-- assert_can_mint (src/tenk-nft-contract/contracts/tenk/src/lib.rs, lines
345-361): the owner bypasses the gating; otherwise the phase decides the
available allowance (Presale reads the stored record, panicking when the
account is not whitelisted; Open consults get_or_add_whitelist_allowance), the
requested quantity is clamped with min, a zero clamp aborts, and finally the
attached deposit must cover the total cost of the clamped quantity. -/
def Tenk.assert_can_mint (st : TenkState) (account : String) (num attached now : Nat) :
    Except String (Nat × TenkState) :=
  if Tenk.is_owner st account then
    if attached < Tenk.total_cost st num account now then
      Except.error "Not enough attached deposit to buy"
    else Except.ok (num, st)
  else
    let gate : Except String (Nat × TenkState) :=
      match Tenk.status st now with
      | Status.SoldOut => Except.error "No NFTs left to mint"
      | Status.Closed => Except.error "Contract currently closed"
      | Status.Presale =>
        match wlGet st.whitelist account with
        | none => Except.error "Account not on whitelist"
        | some al => Except.ok (al.left, st)
      | Status.Open =>
        let p := Tenk.get_or_add_whitelist_allowance st account num
        Except.ok (p.1, p.2)
    match gate with
    | Except.error e => Except.error e
    | Except.ok (allowed, st1) =>
      let n := Nat.min allowed num
      if n = 0 then Except.error "Account has no more allowance left"
      else if attached < Tenk.total_cost st1 n account now then
        Except.error "Not enough attached deposit to buy"
      else Except.ok (n, st1)

/-- has_allowance (src/tenk-nft-contract/contracts/tenk/src/lib.rs, lines
481-483): a public cap is configured or the sale is in presale. -/
def Tenk.has_allowance (st : TenkState) (now : Nat) : Bool :=
  st.sale.allowance.isSome || (Tenk.status st now == Status.Presale)

/-- use_whitelist_allowance (src/tenk-nft-contract/contracts/tenk/src/lib.rs,
lines 454-460): when an allowance applies and the minter is not the owner, the
stored record is fetched (panicking when absent), debited with use_num and
stored back; otherwise the state is unchanged. -/
def Tenk.use_whitelist_allowance (st : TenkState) (account : String) (num now : Nat) :
    Except String TenkState :=
  if Tenk.has_allowance st now && !(Tenk.is_owner st account) then
    match wlGet st.whitelist account with
    | none => Except.error "Account not on whitelist"
    | some al =>
      match al.use_num num with
      | Except.error e => Except.error e
      | Except.ok al2 =>
        Except.ok { st with whitelist := wlInsert st.whitelist account al2 }
  else Except.ok st

/-- The gated portion of a mint (src/tenk-nft-contract/contracts/tenk/src/lib.rs,
nft_mint_one lines 246-248): assert_can_mint decides the clamped quantity,
nft_mint_many_ungaurded draws that many fresh ids (advancing last_id), and
use_whitelist_allowance debits the quota. -/
def Tenk.gated_mint (st : TenkState) (account : String) (num attached now : Nat) :
    Except String (Nat × TenkState) :=
  match Tenk.assert_can_mint st account num attached now with
  | Except.error e => Except.error e
  | Except.ok (n, st1) =>
    let st2 := { st1 with last_id := st1.last_id + n }
    match Tenk.use_whitelist_allowance st2 account n now with
    | Except.error e => Except.error e
    | Except.ok st3 => Except.ok (n, st3)

/-- The arguments of the vault initialisation call dispatched by nft_mint_one
(src/tenk-nft-contract/contracts/tenk/src/lib.rs, lines 263-273). -/
structure VaultInitArgs where
  owner_id : String
  token_id : String
  token_deposit : List TokenDeposit
  near_amount : Nat
deriving DecidableEq, Repr

/-- nft_mint_one (src/tenk-nft-contract/contracts/tenk/src/lib.rs, lines
227-276): requires an attached deposit of at least 2 NEAR, checks the
per-transaction rate limit against the fixed quantity 1, runs the gated mint
for the predecessor, and dispatches the vault provisioning call whose
owner_id argument is the current account (the NFT contract itself) and whose
token id is the freshly minted last_id. -/
def Tenk.nft_mint_one (st : TenkState) (predecessor current_account : String)
    (token_deposit : List TokenDeposit) (near_amount attached now : Nat) :
    Except String (Nat × TenkState × VaultInitArgs) :=
  if attached < 2 * 10 ^ 24 then Except.error "You need to deposit 2N "
  else
    let rateOk : Bool :=
      match st.sale.mint_rate_limit with
      | none => true
      | some l => decide (1 ≤ l)
    if !rateOk then Except.error "over mint limit"
    else
      match Tenk.gated_mint st predecessor 1 attached now with
      | Except.error e => Except.error e
      | Except.ok (n, st2) =>
        Except.ok (n, st2,
          { owner_id := current_account
            token_id := toString st2.last_id
            token_deposit := token_deposit
            near_amount := near_amount })

/-- The allowance value assert_can_mint computes for a non-owner during a
gated phase: the stored record's left during Presale, the
get_or_add_whitelist_allowance result during Open, nothing otherwise. -/
def Tenk.effective_left (st : TenkState) (account : String) (num now : Nat) :
    Option Nat :=
  match Tenk.status st now with
  | Status.Presale => (wlGet st.whitelist account).map Allowance.left
  | Status.Open => some (Tenk.get_or_add_whitelist_allowance st account num).1
  | _ => none

/-- The claimed counter recorded for an account, zero when no record exists. -/
def Tenk.claimed_of (st : TenkState) (account : String) : Nat :=
  match wlGet st.whitelist account with
  | some al => al.claimed
  | none => 0

/-- The owner lookup and authorization prefix of nft_burn
(src/tenk-nft-contract/contracts/tenk/src/lib.rs, lines 172-180): exactly one
yoctoNEAR must be attached, a missing owner record is substituted by the
hardcoded account testnet, and the caller must equal the looked-up owner. -/
def Tenk.nft_burn_auth (st : TenkState) (token_id predecessor : String)
    (attached : Nat) : Except String Unit :=
  if attached ≠ 1 then
    Except.error "Requires attached deposit of exactly 1 yoctoNEAR"
  else
    let owner := (lookupStr st.owner_by_id token_id).getD "testnet"
    if owner = predecessor then Except.ok ()
    else Except.error "Token owner only"



/-- Example sale configuration with the public phase already begun, no public
allowance cap, price zero and no rate limit. -/
def openSale : Sale := ⟨none, some 0, none, none, 0, none⟩

/-- Example contract state in the open phase with an empty whitelist and no
minted tokens. -/
def openState : TenkState := ⟨"boss.near", [], openSale, 0, []⟩

/-- Example sale configuration with the presale already begun, the public
phase unset, no cap, and a zero presale price. -/
def presaleSale : Sale := ⟨some 0, none, none, some 0, 0, none⟩

/-- Example contract state in the presale phase with an empty whitelist. -/
def presaleState : TenkState := ⟨"boss.near", [], presaleSale, 0, []⟩

/-- Example presale state whose whitelist grants alice.near an allowance of
2 with nothing claimed yet. -/
def c8State : TenkState := ⟨"boss.near", [("alice.near", ⟨0, 2⟩)], presaleSale, 0, []⟩

/-- The state c8State after a clamped mint of 2: both ids drawn and the
allowance fully claimed. -/
def c8StateAfter : TenkState := ⟨"boss.near", [("alice.near", ⟨2, 2⟩)], presaleSale, 2, []⟩

/-- Reading a key immediately after writing it yields the written allowance. -/
theorem wlGet_wlInsert_self :
    ∀ (wl : List (String × Allowance)) (a : String) (al : Allowance),
      wlGet (wlInsert wl a al) a = some al
  | [], a, al => by simp [wlInsert, wlGet]
  | (b, x) :: rest, a, al => by
    by_cases h : b = a
    · simp [wlInsert, wlGet, h]
    · simp [wlInsert, wlGet, h, wlGet_wlInsert_self rest a al]


/-- C1: the claim states the vault constructor rejects declarations whose
confirmed flag is pre-set to true and that every deposit of a created vault
starts unconfirmed.  Evaluating the code at the failing input shows the
opposite: a declaration arriving with is_deposited = false is rejected with
the message is_deposit must be true, while a declaration arriving with
is_deposited = true is accepted and stored still confirmed (only the base
flag near_deposited starts false). -/
theorem c1_vault_new_preset_confirmed :
    Vault.new "nft.near" "1" 100 [⟨"ft.near", 5, false⟩] =
      Except.error "is_deposit must be true" ∧
    Vault.new "nft.near" "1" 100 [⟨"ft.near", 5, true⟩] =
      Except.ok ⟨"nft.near", "1", 100, false, [⟨"ft.near", 5, true⟩]⟩ := by
  decide

/-- C2: the claim states a transfer from a contract matching no declaration is
returned fully unused.  Evaluating the code at the failing input (a vault
declaring 100 of token x.near, receiving 100 from contract y.near) shows the
loop falls through and reports 0 unused, silently keeping the whole transfer;
no confirmed flag changes. -/
theorem c2_unmatched_transfer_kept :
    Vault.ft_on_transfer ⟨"nft.near", "1", 0, false, [⟨"x.near", 100, false⟩]⟩
        "y.near" 100 =
      Except.ok (⟨"nft.near", "1", 0, false, [⟨"x.near", 100, false⟩]⟩, [], 0) ∧
    (0 : Nat) ≠ 100 := by
  decide

/-- C3 counterexample: a vault holding a confirmed base deposit of 100 and a
confirmed token deposit of 50 is released twice in sequence by its owner.  The
first call clears only the base flag: the stored token declaration keeps
is_deposited = true, so the second call dispatches the same token transfer
again, refuting the claim that a second release dispatches no additional
transfers because all confirmed flags were cleared. -/
theorem c3_release_counterexample :
    Vault.release ⟨"nft.near", "1", 100, true, [⟨"x.near", 50, true⟩]⟩
        "nft.near" "alice.near" =
      Except.ok (⟨"nft.near", "1", 100, false, [⟨"x.near", 50, true⟩]⟩,
        ⟨some ("alice.near", 100), [("x.near", "alice.near", 50)], "alice.near"⟩) ∧
    Vault.release ⟨"nft.near", "1", 100, false, [⟨"x.near", 50, true⟩]⟩
        "nft.near" "alice.near" =
      Except.ok (⟨"nft.near", "1", 100, false, [⟨"x.near", 50, true⟩]⟩,
        ⟨none, [("x.near", "alice.near", 50)], "alice.near"⟩) ∧
    [("x.near", "alice.near", (50 : Nat))] ≠ [] := by
  decide

/-- C3 amended: release is idempotent only for the base deposit.  A completed
release clears the base confirmed flag (so a second sequential call dispatches
no base-currency transfer) but leaves every token declaration's confirmed flag
untouched, so a second call re-dispatches exactly the token transfers of the
first; in the deployed system only the asynchronous deletion of the vault
account prevents this double payment. -/
theorem c3_release_partial_idempotence (v v1 : Vault) (caller claimant : String)
    (e1 : ReleaseEffect)
    (h1 : Vault.release v caller claimant = Except.ok (v1, e1)) :
    v1.near_deposited = false ∧ v1.token_deposit = v.token_deposit ∧
    ∃ v2 e2, Vault.release v1 caller claimant = Except.ok (v2, e2) ∧
      e2.near_transfer = none ∧ e2.token_transfers = e1.token_transfers := by
  unfold Vault.release at h1
  split at h1
  case isTrue h =>
    injection h1 with h1
    injection h1 with hv he
    subst hv he
    refine ⟨rfl, rfl, ?_⟩
    refine ⟨{ v with near_deposited := false },
      ⟨none,
        v.token_deposit.filterMap fun t =>
          if t.is_deposited then some (t.token_contract_id, claimant, t.token_amount)
          else none,
        claimant⟩, ?_, rfl, rfl⟩
    unfold Vault.release
    simp [h]
  case isFalse h => cases h1

/-- C3 witness: the amended theorem applied to the concrete double release of
the counterexample vault. -/
theorem c3_release_partial_idempotence_witness :
    Vault.near_deposited ⟨"nft.near", "1", 100, false, [⟨"x.near", 50, true⟩]⟩ = false ∧
    Vault.token_deposit ⟨"nft.near", "1", 100, false, [⟨"x.near", 50, true⟩]⟩ =
      Vault.token_deposit ⟨"nft.near", "1", 100, true, [⟨"x.near", 50, true⟩]⟩ ∧
    ∃ v2 e2,
      Vault.release ⟨"nft.near", "1", 100, false, [⟨"x.near", 50, true⟩]⟩
          "nft.near" "alice.near" = Except.ok (v2, e2) ∧
      e2.near_transfer = none ∧
      e2.token_transfers =
        ReleaseEffect.token_transfers
          ⟨some ("alice.near", 100), [("x.near", "alice.near", 50)], "alice.near"⟩ :=
  c3_release_partial_idempotence
    ⟨"nft.near", "1", 100, true, [⟨"x.near", 50, true⟩]⟩
    ⟨"nft.near", "1", 100, false, [⟨"x.near", 50, true⟩]⟩
    "nft.near" "alice.near"
    ⟨some ("alice.near", 100), [("x.near", "alice.near", 50)], "alice.near"⟩
    (by decide)

/-- C4 counterexample: a vault expecting a base amount of 100 receives an
attached value of 100 (the 1 percent fee is missing).  The require! aborts the
whole call with the panic message instead of reporting the deposit as
unaccepted while letting the call succeed. -/
theorem c4_deposit_near_counterexample :
    Vault.deposit_near ⟨"nft.near", "1", 100, false, []⟩ 100 =
      Except.error "Can not accept Near Deposit" := by
  decide

/-- C4 amended: deposit_near confirms the base deposit (sets the base flag and
forwards the 1 percent skim, computed by integer division, to the vault's
recorded owner) iff the declared base amount is nonzero, the base deposit is
not yet confirmed, and the attached value equals the base amount plus its
hundredth; any mismatch aborts the whole call with the require! panic (the
transaction reverts, so the caller may retry in a fresh call). -/
theorem c4_deposit_near_characterization (v : Vault) (attached : Nat)
    (hA : attached < u128Bound) :
    (Vault.deposit_near v attached =
        Except.ok ({ v with near_deposited := true }, (v.owner_id, v.near_amount / 100)) ↔
      (v.near_amount ≠ 0 ∧ v.near_deposited = false ∧
        v.near_amount / 100 + v.near_amount = attached)) ∧
    ((v.near_amount = 0 ∨ v.near_deposited = true ∨
        v.near_amount / 100 + v.near_amount ≠ attached) →
      ∃ e, Vault.deposit_near v attached = Except.error e) := by
  unfold Vault.deposit_near
  by_cases h0 : v.near_amount = 0
  · simp [h0]
  · by_cases hd : v.near_deposited
    · simp [h0, hd]
    · by_cases hov : u128Bound ≤ v.near_amount / 100 + v.near_amount
      · have hne : v.near_amount / 100 + v.near_amount ≠ attached := by omega
        simp [h0, hd, hov, hne]
      · by_cases heq : v.near_amount / 100 + v.near_amount = attached
        · simp [h0, hd, hov, heq, hA]
        · simp [h0, hd, hov, heq]

/-- C4 witness: the characterization applied to a vault expecting 100 with the
exact attached value 101. -/
theorem c4_deposit_near_characterization_witness :
    (Vault.deposit_near ⟨"nft.near", "1", 100, false, []⟩ 101 =
        Except.ok (⟨"nft.near", "1", 100, true, []⟩, ("nft.near", 1)) ↔
      ((100 : Nat) ≠ 0 ∧ false = false ∧ (100 : Nat) / 100 + 100 = 101)) ∧
    (((100 : Nat) = 0 ∨ false = true ∨ (100 : Nat) / 100 + 100 ≠ 101) →
      ∃ e, Vault.deposit_near ⟨"nft.near", "1", 100, false, []⟩ 101 =
        Except.error e) :=
  c4_deposit_near_characterization ⟨"nft.near", "1", 100, false, []⟩ 101 (by decide)

/-- The timestamp guard holds exactly when the optional bound is set and
strictly below the current time. -/
theorem optLt_eq_true_iff (o : Option Nat) (n : Nat) :
    optLt o n = true ↔ ∃ x, o = some x ∧ x < n := by
  cases o with
  | none => simp [optLt]
  | some x => simp [optLt]

/-- C6: get_status returns Open iff the public start is set and strictly
before now; otherwise it returns Presale iff the presale start is set and
strictly before now; otherwise it returns Closed — in exactly this
precedence — and it never returns SoldOut from the timestamps alone. -/
theorem c6_get_status_characterization (pre pub : Option Nat) (now : Nat) :
    (Tenk.get_status pre pub now = Status.Open ↔ ∃ p, pub = some p ∧ p < now) ∧
    (Tenk.get_status pre pub now = Status.Presale ↔
      ((¬ ∃ p, pub = some p ∧ p < now) ∧ ∃ q, pre = some q ∧ q < now)) ∧
    (Tenk.get_status pre pub now = Status.Closed ↔
      ((¬ ∃ p, pub = some p ∧ p < now) ∧ ¬ ∃ q, pre = some q ∧ q < now)) ∧
    Tenk.get_status pre pub now ≠ Status.SoldOut := by
  have hpub := optLt_eq_true_iff pub now
  have hpre := optLt_eq_true_iff pre now
  by_cases h1 : optLt pub now <;> by_cases h2 : optLt pre now <;>
    simp [h1, h2] at hpub hpre <;>
    simp [Tenk.get_status, h1, h2, hpub, hpre] <;>
    first
      | exact hpub
      | exact ⟨hpub, fun _ => hpre, hpub, hpre⟩

/-- C7 counterexample: during an active presale, a buyer with no prior
allowance record requesting quantity 1 fails with the whitelist-lookup panic
message, which differs from the NoAllowanceLeft message the claim states. -/
theorem c7_presale_no_record_counterexample :
    Tenk.nft_mint_one presaleState "alice.near" "nft.near" [] 100 (2 * 10 ^ 24) 10 =
      Except.error "Account not on whitelist" ∧
    "Account not on whitelist" ≠ "Account has no more allowance left" := by
  decide

/-- C7 amended: during Presale, a non-owner mint by an account with no prior
allowance record aborts (before any state mutation) with the whitelist-lookup
panic Account not on whitelist, not with the NoAllowanceLeft error; presale
indeed never auto-grants quota. -/
theorem c7_presale_no_record (st : TenkState) (account : String)
    (num attached now : Nat)
    (howner : Tenk.is_owner st account = false)
    (hpre : Tenk.status st now = Status.Presale)
    (hwl : wlGet st.whitelist account = none) :
    Tenk.assert_can_mint st account num attached now =
      Except.error "Account not on whitelist" := by
  unfold Tenk.assert_can_mint
  simp [howner, hpre, hwl]

/-- C7 witness: the amended theorem applied to the concrete presale state with
an empty whitelist. -/
theorem c7_presale_no_record_witness :
    Tenk.assert_can_mint presaleState "alice.near" 1 0 10 =
      Except.error "Account not on whitelist" :=
  c7_presale_no_record presaleState "alice.near" 1 0 10
    (by decide) (by decide) (by decide)

/-- C10: when a token id has no recorded owner, the burn owner lookup
substitutes the hardcoded account testnet, so the authorization check of
nft_burn succeeds exactly for a caller named testnet and fails with the
owner-only error Token owner only for every other caller; no missing-token
error is ever reported. -/
theorem c10_burn_missing_owner_auth (st : TenkState) (token_id caller : String)
    (hmiss : lookupStr st.owner_by_id token_id = none) :
    Tenk.nft_burn_auth st token_id caller 1 =
      (if caller = "testnet" then Except.ok ()
       else Except.error "Token owner only") := by
  by_cases hc : caller = "testnet"
  · simp [Tenk.nft_burn_auth, hmiss, hc]
  · have hc2 : ¬("testnet" = caller) := fun h => hc h.symm
    simp [Tenk.nft_burn_auth, hmiss, hc, hc2]

/-- C10 witness: the theorem applied to a state with no owner records, the
token id 1 and the caller alice.near. -/
theorem c10_burn_missing_owner_auth_witness :
    Tenk.nft_burn_auth openState "1" "alice.near" 1 =
      (if "alice.near" = "testnet" then Except.ok ()
       else Except.error "Token owner only") :=
  c10_burn_missing_owner_auth openState "1" "alice.near" (by decide)

/-- Advancing last_id does not change the sale status. -/
theorem status_set_last_id (st : TenkState) (x now : Nat) :
    Tenk.status { st with last_id := x } now = Tenk.status st now := rfl

/-- Advancing last_id does not change owner membership. -/
theorem is_owner_set_last_id (st : TenkState) (x : Nat) (a : String) :
    Tenk.is_owner { st with last_id := x } a = Tenk.is_owner st a := rfl

/-- Advancing last_id does not change the allowance applicability flag. -/
theorem has_allowance_set_last_id (st : TenkState) (x now : Nat) :
    Tenk.has_allowance { st with last_id := x } now = Tenk.has_allowance st now := rfl

/-- Updating the whitelist does not change the sale status. -/
theorem status_set_whitelist (st : TenkState) (wl : List (String × Allowance)) (now : Nat) :
    Tenk.status { st with whitelist := wl } now = Tenk.status st now := rfl

/-- Updating the whitelist does not change owner membership. -/
theorem is_owner_set_whitelist (st : TenkState) (wl : List (String × Allowance)) (a : String) :
    Tenk.is_owner { st with whitelist := wl } a = Tenk.is_owner st a := rfl

/-- C9: during Open with no configured public allowance cap, a non-owner mint
is not clamped (the full requested quantity is minted) and the whitelist table
is unchanged — no allowance record is created for the minting account. -/
theorem c9_open_no_cap_mint (st : TenkState) (account : String)
    (k attached now n : Nat) (st3 : TenkState)
    (howner : Tenk.is_owner st account = false)
    (hopen : Tenk.status st now = Status.Open)
    (hcap : st.sale.allowance = none)
    (hok : Tenk.gated_mint st account k attached now = Except.ok (n, st3)) :
    n = k ∧ st3.whitelist = st.whitelist ∧ st3.last_id = st.last_id + k := by
  unfold Tenk.gated_mint Tenk.assert_can_mint Tenk.get_or_add_whitelist_allowance at hok
  simp only [howner, hopen, hcap, Bool.false_eq_true, if_false] at hok
  simp only [Nat.min_self] at hok
  by_cases hk : k = 0
  · simp [hk] at hok
  · simp only [hk, if_false] at hok
    by_cases hdep : attached < Tenk.total_cost st k account now
    · simp [hdep] at hok
    · simp only [hdep, if_false] at hok
      unfold Tenk.use_whitelist_allowance at hok
      rw [has_allowance_set_last_id] at hok
      simp only [Tenk.has_allowance, hopen, hcap] at hok
      simp at hok
      exact ⟨hok.1.symm, by rw [← hok.2], by rw [← hok.2]⟩

/-- C9 witness: the theorem applied to the concrete open-phase state with no
cap, requesting 3 units. -/
theorem c9_open_no_cap_mint_witness :
    (3 : Nat) = 3 ∧
    TenkState.whitelist ⟨"boss.near", [], openSale, 3, []⟩ = openState.whitelist ∧
    TenkState.last_id ⟨"boss.near", [], openSale, 3, []⟩ = openState.last_id + 3 :=
  c9_open_no_cap_mint openState "alice.near" 3 0 10 3
    ⟨"boss.near", [], openSale, 3, []⟩
    (by decide) (by decide) (by decide) (by decide)

/-- C8: during Open or Presale, a non-owner mint requesting k units while the
allowance computed by assert_can_mint leaves j with 0 < j < k mints exactly j
items (the quantity is clamped to j, drawing j fresh ids) and debits the
account's claimed counter by exactly j. -/
theorem c8_clamped_mint (st : TenkState) (account : String)
    (k attached now j n : Nat) (st3 : TenkState)
    (howner : Tenk.is_owner st account = false)
    (heff : Tenk.effective_left st account k now = some j)
    (hj : 0 < j) (hjk : j < k)
    (hok : Tenk.gated_mint st account k attached now = Except.ok (n, st3)) :
    n = j ∧ st3.last_id = st.last_id + j ∧
    Tenk.claimed_of st3 account = Tenk.claimed_of st account + j := by
  have hj0 : j ≠ 0 := Nat.pos_iff_ne_zero.mp hj
  have hjk2 : j ≤ k := le_of_lt hjk
  have howner2 : (account == st.owner_id || account == TECH_BACKUP_OWNER) = false := howner
  cases hstat : Tenk.status st now with
  | Closed => simp [Tenk.effective_left, hstat] at heff
  | SoldOut => simp [Tenk.effective_left, hstat] at heff
  | Presale =>
    simp only [Tenk.effective_left, hstat, Option.map_eq_some'] at heff
    obtain ⟨al, hal, hleft⟩ := heff
    have hmin : Nat.min al.left k = j := by
      rw [hleft]; exact Nat.min_eq_left hjk2
    have hacm : Tenk.assert_can_mint st account k attached now =
        if attached < Tenk.total_cost st j account now then
          Except.error "Not enough attached deposit to buy"
        else Except.ok (j, st) := by
      unfold Tenk.assert_can_mint
      simp [howner, hstat, hal, hmin, hj0]
    by_cases hdep : attached < Tenk.total_cost st j account now
    · have herr : Tenk.gated_mint st account k attached now =
          Except.error "Not enough attached deposit to buy" := by
        unfold Tenk.gated_mint
        rw [hacm, if_pos hdep]
      rw [herr] at hok
      cases hok
    · have huse : Tenk.use_whitelist_allowance
          { st with last_id := st.last_id + j } account j now =
          Except.ok { st with
            last_id := st.last_id + j
            whitelist := wlInsert st.whitelist account ⟨al.claimed + j, al.max⟩ } := by
        unfold Tenk.use_whitelist_allowance
        have hstat2 : Tenk.get_status st.sale.presale_start st.sale.public_sale_start now =
            Status.Presale := hstat
        simp [Tenk.has_allowance, Tenk.status, hal, Allowance.use_num, hleft,
          Tenk.is_owner, howner2, hstat2]
      have hgm : Tenk.gated_mint st account k attached now =
          Except.ok (j, { st with
            last_id := st.last_id + j
            whitelist := wlInsert st.whitelist account ⟨al.claimed + j, al.max⟩ }) := by
        unfold Tenk.gated_mint
        rw [hacm, if_neg hdep]
        dsimp only
        rw [huse]
      rw [hgm] at hok
      injection hok with hok1
      injection hok1 with hn hst
      subst hst
      refine ⟨hn.symm, rfl, ?_⟩
      simp [Tenk.claimed_of, wlGet_wlInsert_self, hal]
  | Open =>
    simp only [Tenk.effective_left, hstat, Option.some.injEq] at heff
    cases hcap : st.sale.allowance with
    | none =>
      unfold Tenk.get_or_add_whitelist_allowance at heff
      rw [hcap] at heff
      simp at heff
      omega
    | some cap =>
      have hleft :
          (((wlGet st.whitelist account).getD (Allowance.new cap)).raise_max cap).left = j := by
        unfold Tenk.get_or_add_whitelist_allowance at heff
        rw [hcap] at heff
        exact heff
      have hmin :
          Nat.min (((wlGet st.whitelist account).getD (Allowance.new cap)).raise_max cap).left k
            = j := by
        rw [hleft]; exact Nat.min_eq_left hjk2
      have hacm : Tenk.assert_can_mint st account k attached now =
          if attached < Tenk.total_cost
              { st with
                whitelist := wlInsert st.whitelist account
                  (((wlGet st.whitelist account).getD (Allowance.new cap)).raise_max cap) }
              j account now then
            Except.error "Not enough attached deposit to buy"
          else Except.ok (j,
            { st with
              whitelist := wlInsert st.whitelist account
                (((wlGet st.whitelist account).getD (Allowance.new cap)).raise_max cap) }) := by
        unfold Tenk.assert_can_mint Tenk.get_or_add_whitelist_allowance
        simp [howner, hstat, hcap, hmin, hj0]
      by_cases hdep : attached < Tenk.total_cost
          { st with
            whitelist := wlInsert st.whitelist account
              (((wlGet st.whitelist account).getD (Allowance.new cap)).raise_max cap) }
          j account now
      · have herr : Tenk.gated_mint st account k attached now =
            Except.error "Not enough attached deposit to buy" := by
          unfold Tenk.gated_mint
          rw [hacm, if_pos hdep]
        rw [herr] at hok
        cases hok
      · have huse : Tenk.use_whitelist_allowance
            { st with
              whitelist := wlInsert st.whitelist account
                  (((wlGet st.whitelist account).getD (Allowance.new cap)).raise_max cap)
              last_id := st.last_id + j } account j now =
            Except.ok { st with
              last_id := st.last_id + j
              whitelist := wlInsert
                (wlInsert st.whitelist account
                  (((wlGet st.whitelist account).getD (Allowance.new cap)).raise_max cap))
                account
                ⟨(((wlGet st.whitelist account).getD (Allowance.new cap)).raise_max cap).claimed + j,
                 (((wlGet st.whitelist account).getD (Allowance.new cap)).raise_max cap).max⟩ } := by
          unfold Tenk.use_whitelist_allowance
          simp [Tenk.has_allowance, hcap, Tenk.is_owner, howner2,
            wlGet_wlInsert_self, Allowance.use_num, hleft]
        have hgm : Tenk.gated_mint st account k attached now =
            Except.ok (j, { st with
              last_id := st.last_id + j
              whitelist := wlInsert
                (wlInsert st.whitelist account
                  (((wlGet st.whitelist account).getD (Allowance.new cap)).raise_max cap))
                account
                ⟨(((wlGet st.whitelist account).getD (Allowance.new cap)).raise_max cap).claimed + j,
                 (((wlGet st.whitelist account).getD (Allowance.new cap)).raise_max cap).max⟩ }) := by
          unfold Tenk.gated_mint
          rw [hacm, if_neg hdep]
          dsimp only
          rw [huse]
        rw [hgm] at hok
        injection hok with hok1
        injection hok1 with hn hst
        subst hst
        refine ⟨hn.symm, rfl, ?_⟩
        cases hwl : wlGet st.whitelist account with
        | none =>
          simp [Tenk.claimed_of, wlGet_wlInsert_self, hwl, Allowance.raise_max, Allowance.new]
        | some b =>
          simp [Tenk.claimed_of, wlGet_wlInsert_self, hwl, Allowance.raise_max]

/-- C8 witness: the theorem applied to the concrete presale state granting
alice.near an allowance of 2 while she requests 5 with nothing claimed. -/
theorem c8_clamped_mint_witness :
    (2 : Nat) = 2 ∧ c8StateAfter.last_id = c8State.last_id + 2 ∧
    Tenk.claimed_of c8StateAfter "alice.near" =
      Tenk.claimed_of c8State "alice.near" + 2 :=
  c8_clamped_mint c8State "alice.near" 5 0 10 2 2 c8StateAfter
    (by decide) (by decide) (by decide) (by decide) (by decide)

/-- C5 counterexample: a concrete mint by buyer alice.near on the NFT contract
account nft.near provisions a vault whose owner_id argument is the NFT
contract account itself, not the minting caller. -/
theorem c5_vault_owner_counterexample :
    (Tenk.nft_mint_one openState "alice.near" "nft.near" [] 100 (2 * 10 ^ 24) 10).toOption.map
        (fun r => r.2.2.owner_id) = some "nft.near" ∧
    "nft.near" ≠ "alice.near" := by
  decide

/-- C5 amended: the vault provisioned by nft_mint_one is seeded with all the
declared assets and the declared base amount, its token id is the freshly
minted identifier, but the recorded vault owner is the current account (the
NFT contract itself), not the minting caller; consequently the NFT contract
account is the sole account whose release call on such a vault can succeed
(it issues that call from nft_burn on the token owner's behalf). -/
theorem c5_vault_seed_owner (st : TenkState) (predecessor current_account : String)
    (td : List TokenDeposit) (na attached now n : Nat) (st2 : TenkState)
    (args : VaultInitArgs)
    (hok : Tenk.nft_mint_one st predecessor current_account td na attached now =
      Except.ok (n, st2, args)) :
    args.owner_id = current_account ∧ args.token_deposit = td ∧
    args.near_amount = na ∧ args.token_id = toString st2.last_id ∧
    ∀ w : Vault,
      Vault.new args.owner_id args.token_id args.near_amount args.token_deposit =
        Except.ok w →
      ∀ c o r, Vault.release w c o = Except.ok r → c = current_account := by
  unfold Tenk.nft_mint_one at hok
  split at hok
  · cases hok
  · dsimp only at hok
    split at hok
    · cases hok
    · split at hok
      · cases hok
      · injection hok with hok1
        injection hok1 with hn hok2
        injection hok2 with hst hargs
        subst hargs
        subst hst
        refine ⟨rfl, rfl, rfl, rfl, ?_⟩
        intro w hw c o r hr
        unfold Vault.new at hw
        split at hw
        · cases hw
        · injection hw with hw1
          subst hw1
          unfold Vault.release at hr
          split at hr
          case isTrue h => exact h
          case isFalse h => cases hr

/-- C5 witness: the amended theorem applied to the concrete open-phase mint of
the counterexample. -/
theorem c5_vault_seed_owner_witness :
    VaultInitArgs.owner_id ⟨"nft.near", "1", [], 100⟩ = "nft.near" ∧
    VaultInitArgs.token_deposit ⟨"nft.near", "1", [], 100⟩ = [] ∧
    VaultInitArgs.near_amount ⟨"nft.near", "1", [], 100⟩ = 100 ∧
    VaultInitArgs.token_id ⟨"nft.near", "1", [], 100⟩ =
      toString (TenkState.last_id ⟨"boss.near", [], openSale, 1, []⟩) ∧
    ∀ w : Vault,
      Vault.new (VaultInitArgs.owner_id ⟨"nft.near", "1", [], 100⟩)
          (VaultInitArgs.token_id ⟨"nft.near", "1", [], 100⟩)
          (VaultInitArgs.near_amount ⟨"nft.near", "1", [], 100⟩)
          (VaultInitArgs.token_deposit ⟨"nft.near", "1", [], 100⟩) =
        Except.ok w →
      ∀ c o r, Vault.release w c o = Except.ok r → c = "nft.near" :=
  c5_vault_seed_owner openState "alice.near" "nft.near" [] 100 (2 * 10 ^ 24) 10 1
    ⟨"boss.near", [], openSale, 1, []⟩ ⟨"nft.near", "1", [], 100⟩ (by decide)
